import Mathlib

set_option linter.unusedVariables false

/-!
Verification of the batch enrichment crawler (src/crawler.py) against its
natural-language specification.

Shallow embedding conventions:
* Python strings are `List Char`; byte strings are `List Nat` (byte values).
* A JSON value decoded by `json.loads` is a `JVal`.
* External effects (browser navigation, page read, the model service, the
  database) are oracles passed in explicitly; the control flow around them is
  translated from the source.
* Fallible stdlib operations (the `unicode_escape` codec can raise) return
  `Option`.
-/

/-- A JSON value as produced by Python's `json.loads`: null, bool, integer,
string, array, or string-keyed object.  (Float literals never appear in the
claims; numeric values are embedded as integers.) -/
inductive JVal where
  | jnull : JVal
  | jbool : Bool → JVal
  | jint : Int → JVal
  | jstr : List Char → JVal
  | jarr : List JVal → JVal
  | jobj : List (List Char × JVal) → JVal

/-- Python truthiness (`if value:`) on a decoded JSON value: `None`, `False`,
`0`, `""`, `[]`, `{}` are falsy, everything else truthy. -/
def pyTruthy : JVal → Bool
  | .jnull => false
  | .jbool b => b
  | .jint n => n != 0
  | .jstr s => !s.isEmpty
  | .jarr xs => !xs.isEmpty
  | .jobj kvs => !kvs.isEmpty

/-- One hexadecimal digit of `n % 16`, lower case (as Python's repr/`\x` uses). -/
def hexDigit (n : Nat) : Char :=
  let m := n % 16
  if m < 10 then Char.ofNat (48 + m) else Char.ofNat (87 + m)

/-- Two-digit lower-case hex rendering of a byte, as in Python's `\xHH`. -/
def hexByte (n : Nat) : List Char := [hexDigit (n / 16), hexDigit n]

/-- Escape a single character inside a Python `repr` of a string literal that
is being quoted with `q`.  Backslash and the quote are escaped, `\n`/`\r`/`\t`
specially, other ASCII control characters (and DEL) as `\xHH`.  Non-ASCII
characters are kept literally (Python escapes only the non-printable ones; the
printability table is not modelled, no claim touches it). -/
def pyReprEscChar (q c : Char) : List Char :=
  if c = '\\' then ['\\', '\\']
  else if c = q then ['\\', q]
  else if c = '\n' then ['\\', 'n']
  else if c = '\r' then ['\\', 'r']
  else if c = '\t' then ['\\', 't']
  else if c.toNat < 32 || c.toNat == 127 then '\\' :: 'x' :: hexByte c.toNat
  else [c]

/-- Python `repr` of a string: single-quoted, unless the text contains a
single quote and no double quote, in which case double-quoted. -/
def pyReprStr (s : List Char) : List Char :=
  let q := if s.contains '\'' && !s.contains '"' then '"' else '\''
  q :: (s.map (pyReprEscChar q)).flatten ++ [q]

/-- Interleave the separator between the pieces, as `sep.join(pieces)`. -/
def joinSep (sep : List Char) : List (List Char) → List Char
  | [] => []
  | [x] => x
  | x :: xs => x ++ sep ++ joinSep sep xs

mutual

/-- Python `repr` of a decoded JSON value (used by `str` on containers). -/
def pyRepr : JVal → List Char
  | .jnull => "None".toList
  | .jbool true => "True".toList
  | .jbool false => "False".toList
  | .jint n => (toString n).toList
  | .jstr s => pyReprStr s
  | .jarr xs => '[' :: joinSep ", ".toList (pyReprList xs) ++ [']']
  | .jobj kvs => Char.ofNat 123 :: joinSep ", ".toList (pyReprObjList kvs) ++ [Char.ofNat 125]

/-- `repr` of each element of a list. -/
def pyReprList : List JVal → List (List Char)
  | [] => []
  | x :: xs => pyRepr x :: pyReprList xs

/-- `repr` of each `key: value` entry of a dict. -/
def pyReprObjList : List (List Char × JVal) → List (List Char)
  | [] => []
  | (k, v) :: kvs => (pyReprStr k ++ ':' :: ' ' :: pyRepr v) :: pyReprObjList kvs

end

/-- Python `str()` of a decoded JSON value, as used by
`", ".join(map(str, value))` in `normalize_field`: identity on strings,
`None`/`True`/`False` keywords, decimal integers, `repr` for containers. -/
def pyStr : JVal → List Char
  | .jstr s => s
  | .jnull => "None".toList
  | .jbool true => "True".toList
  | .jbool false => "False".toList
  | .jint n => (toString n).toList
  | .jarr xs => pyRepr (.jarr xs)
  | .jobj kvs => pyRepr (.jobj kvs)

/-- Escape one character inside a JSON string per `json.dumps` with
`ensure_ascii=False`: only `"`,`\` and control characters are escaped,
non-ASCII characters are preserved literally. -/
def jsonEscChar (c : Char) : List Char :=
  if c = '"' then ['\\', '"']
  else if c = '\\' then ['\\', '\\']
  else if c = '\n' then ['\\', 'n']
  else if c = '\t' then ['\\', 't']
  else if c = '\r' then ['\\', 'r']
  else if c.toNat == 8 then ['\\', 'b']
  else if c.toNat == 12 then ['\\', 'f']
  else if c.toNat < 32 then '\\' :: 'u' :: '0' :: '0' :: hexByte c.toNat
  else [c]

/-- JSON rendering of a string with `ensure_ascii=False`. -/
def jsonDumpsStr (s : List Char) : List Char :=
  '"' :: (s.map jsonEscChar).flatten ++ ['"']

mutual

/-- `json.dumps(value, ensure_ascii=False)` with the default separators
`", "` and `": "`, as applied to dict field values in `normalize_field`. -/
def jsonDumps : JVal → List Char
  | .jnull => "null".toList
  | .jbool true => "true".toList
  | .jbool false => "false".toList
  | .jint n => (toString n).toList
  | .jstr s => jsonDumpsStr s
  | .jarr xs => '[' :: joinSep ", ".toList (jsonDumpsList xs) ++ [']']
  | .jobj kvs => Char.ofNat 123 :: joinSep ", ".toList (jsonDumpsObjList kvs) ++ [Char.ofNat 125]

/-- `dumps` of each array element. -/
def jsonDumpsList : List JVal → List (List Char)
  | [] => []
  | x :: xs => jsonDumps x :: jsonDumpsList xs

/-- `dumps` of each `"key": value` entry of an object. -/
def jsonDumpsObjList : List (List Char × JVal) → List (List Char)
  | [] => []
  | (k, v) :: kvs => (jsonDumpsStr k ++ ':' :: ' ' :: jsonDumps v) :: jsonDumpsObjList kvs

end

/-- UTF-8 encoding of one character (`str.encode()` with the default codec). -/
def utf8EncodeChar (c : Char) : List Nat :=
  let n := c.toNat
  if n < 0x80 then [n]
  else if n < 0x800 then [0xC0 + n / 0x40, 0x80 + n % 0x40]
  else if n < 0x10000 then
    [0xE0 + n / 0x1000, 0x80 + (n / 0x40) % 0x40, 0x80 + n % 0x40]
  else
    [0xF0 + n / 0x40000, 0x80 + (n / 0x1000) % 0x40,
     0x80 + (n / 0x40) % 0x40, 0x80 + n % 0x40]

/-- `str.encode()`: UTF-8 bytes of the string. -/
def utf8Encode (s : List Char) : List Nat :=
  (s.map utf8EncodeChar).flatten

/-- Value of a hex-digit byte, if it is one. -/
def hexVal (b : Nat) : Option Nat :=
  if 48 ≤ b && b ≤ 57 then some (b - 48)
  else if 97 ≤ b && b ≤ 102 then some (b - 87)
  else if 65 ≤ b && b ≤ 70 then some (b - 55)
  else none

/-- Is this byte an octal digit `0`-`7`? -/
def isOctByte (b : Nat) : Bool := 48 ≤ b && b ≤ 55

/-- A code point produced by an escape, as a `Char`; `none` for values that
are not Unicode scalar values (Python's codec can produce lone surrogates,
which a Lean `Char` cannot represent; no claim exercises them). -/
def mkChar (n : Nat) : Option Char :=
  if n < 0xD800 || (0xE000 ≤ n && n < 0x110000) then some (Char.ofNat n) else none

/-- `bytes.decode('unicode_escape')`: bytes outside escapes are decoded as
Latin-1 (byte value = code point); backslash introduces the escape sequences
of Python string literals (`\n`, `\t`, `\\`, octal, `\xHH`, `\uHHHH`,
`\UHHHHHHHH`, backslash-newline line continuation); an unknown escape keeps
the backslash and the character; a trailing backslash or a malformed
`\x`/`\u`/`\U` raises (here `none`).  `\N{name}` lookup is not modelled
(`none`); no claim exercises it. -/
def uescDecode : List Nat → Option (List Char)
  | [] => some []
  | 92 :: rest =>
    match rest with
    | [] => none
    | 10 :: t => uescDecode t
    | 92 :: t => (uescDecode t).map (fun l => '\\' :: l)
    | 39 :: t => (uescDecode t).map (fun l => '\'' :: l)
    | 34 :: t => (uescDecode t).map (fun l => '"' :: l)
    | 97 :: t => (uescDecode t).map (fun l => Char.ofNat 7 :: l)
    | 98 :: t => (uescDecode t).map (fun l => Char.ofNat 8 :: l)
    | 102 :: t => (uescDecode t).map (fun l => Char.ofNat 12 :: l)
    | 110 :: t => (uescDecode t).map (fun l => '\n' :: l)
    | 114 :: t => (uescDecode t).map (fun l => '\r' :: l)
    | 116 :: t => (uescDecode t).map (fun l => '\t' :: l)
    | 118 :: t => (uescDecode t).map (fun l => Char.ofNat 11 :: l)
    | 120 :: t =>
      match t with
      | d1 :: d2 :: t' =>
        match hexVal d1, hexVal d2 with
        | some h1, some h2 => (uescDecode t').map (fun l => Char.ofNat (h1 * 16 + h2) :: l)
        | _, _ => none
      | _ => none
    | 117 :: t =>
      match t with
      | d1 :: d2 :: d3 :: d4 :: t' =>
        match hexVal d1, hexVal d2, hexVal d3, hexVal d4 with
        | some h1, some h2, some h3, some h4 =>
          match mkChar (((h1 * 16 + h2) * 16 + h3) * 16 + h4) with
          | some c => (uescDecode t').map (fun l => c :: l)
          | none => none
        | _, _, _, _ => none
      | _ => none
    | 85 :: t =>
      match t with
      | d1 :: d2 :: d3 :: d4 :: d5 :: d6 :: d7 :: d8 :: t' =>
        match hexVal d1, hexVal d2, hexVal d3, hexVal d4,
              hexVal d5, hexVal d6, hexVal d7, hexVal d8 with
        | some h1, some h2, some h3, some h4, some h5, some h6, some h7, some h8 =>
          match mkChar (((((((h1 * 16 + h2) * 16 + h3) * 16 + h4) * 16 + h5) * 16
              + h6) * 16 + h7) * 16 + h8) with
          | some c => (uescDecode t').map (fun l => c :: l)
          | none => none
        | _, _, _, _, _, _, _, _ => none
      | _ => none
    | 78 :: _ => none
    | b :: t =>
      if isOctByte b then
        match t with
        | b2 :: b3 :: t' =>
          if isOctByte b2 then
            if isOctByte b3 then
              (uescDecode t').map
                (fun l => Char.ofNat (((b - 48) * 8 + (b2 - 48)) * 8 + (b3 - 48)) :: l)
            else
              (uescDecode (b3 :: t')).map (fun l => Char.ofNat ((b - 48) * 8 + (b2 - 48)) :: l)
          else
            (uescDecode (b2 :: b3 :: t')).map (fun l => Char.ofNat (b - 48) :: l)
        | [b2] =>
          if isOctByte b2 then
            (uescDecode []).map (fun l => Char.ofNat ((b - 48) * 8 + (b2 - 48)) :: l)
          else
            (uescDecode [b2]).map (fun l => Char.ofNat (b - 48) :: l)
        | [] => some [Char.ofNat (b - 48)]
      else
        (uescDecode t).map (fun l => '\\' :: Char.ofNat b :: l)
  | b :: rest => (uescDecode rest).map (fun l => Char.ofNat b :: l)

/-- Python `str.isspace` for the characters the `strip()` in
`normalize_field` can remove: ASCII whitespace and separators plus the
Unicode space characters. -/
def pyIsSpace (c : Char) : Bool :=
  let n := c.toNat
  (9 ≤ n && n ≤ 13) || n == 32 || (28 ≤ n && n ≤ 31) || n == 133 || n == 160 ||
  n == 0x1680 || (0x2000 ≤ n && n ≤ 0x200A) || n == 0x2028 || n == 0x2029 ||
  n == 0x202F || n == 0x205F || n == 0x3000

/-- Python `str.strip()`: drop whitespace from both ends. -/
def pyStrip (s : List Char) : List Char :=
  ((s.dropWhile pyIsSpace).reverse.dropWhile pyIsSpace).reverse

/-- The final step of `normalize_field`:
`str(value).encode().decode('unicode_escape').strip()` applied to a string
value (`str` on a string is the identity). -/
def normalizeStr (s : List Char) : Option (List Char) :=
  (uescDecode (utf8Encode s)).map pyStrip

/-- `normalize_field` (src/crawler.py lines 48-55): a list is joined with
`", "` after `str`-ing each element, a dict is rendered with
`json.dumps(..., ensure_ascii=False)`, `None` returns `""` immediately, and
every non-`None` result then passes through
`.encode().decode('unicode_escape').strip()` (which can raise: `none`). -/
def normalize_field : JVal → Option (List Char)
  | .jnull => some []
  | .jarr xs => normalizeStr (joinSep ", ".toList (xs.map pyStr))
  | .jobj kvs => normalizeStr (jsonDumps (.jobj kvs))
  | v => normalizeStr (pyStr v)

/-- A row of the `companies` relation: integer key, immutable inputs, the
four nullable text outputs (`none` is SQL `NULL`, meaning "unprocessed").
The `updated_at` timestamp is set on every write but never read by the
queue; it is not modelled. -/
structure CompanyRow where
  id : Int
  name : List Char
  website : Option (List Char)
  product_name : Option (List Char)
  product_function : Option (List Char)
  product_location : Option (List Char)
  product_qual : Option (List Char)
deriving DecidableEq, Repr

/-- The `WHERE` clause of the queue query in `fetch_companies`
(src/crawler.py lines 38-46): `website IS NOT NULL AND product_name IS NULL
AND id >= start_from`. -/
def eligible (start_from : Int) (r : CompanyRow) : Bool :=
  r.website.isSome && r.product_name.isNone && decide (start_from ≤ r.id)

/-- Insert a row into a list sorted by ascending `id` (the embedding of
`ORDER BY id`). -/
def insertById (r : CompanyRow) : List CompanyRow → List CompanyRow
  | [] => [r]
  | x :: xs => if r.id ≤ x.id then r :: x :: xs else x :: insertById r xs

/-- Sort rows by ascending `id`. -/
def sortById (l : List CompanyRow) : List CompanyRow :=
  l.foldr insertById []

/-- `fetch_companies(limit, start_from)` (src/crawler.py lines 38-46) over a
database state given as the list of all rows: filter by the eligibility
predicate, order by `id`, and take at most `limit` rows. -/
def fetch_companies (db : List CompanyRow) (limit : Nat) (start_from : Int) :
    List CompanyRow :=
  (sortById (db.filter (eligible start_from))).take limit

/-- One `UPDATE companies SET product_name = ..., product_function = ...,
product_location = ..., product_qual = ..., updated_at = NOW() WHERE id = ...`
statement: a single statement always assigns all four output columns
(non-`NULL` string values). -/
structure RowUpdate where
  product_name : List Char
  product_function : List Char
  product_location : List Char
  product_qual : List Char
deriving DecidableEq, Repr

/-- Apply an `UPDATE` statement to the row it addresses: all four output
columns become the given (non-`NULL`) strings. -/
def applyUpdate (r : CompanyRow) (u : RowUpdate) : CompanyRow :=
  { r with
    product_name := some u.product_name
    product_function := some u.product_function
    product_location := some u.product_location
    product_qual := some u.product_qual }

/-- Python `dict.get(key)` on a decoded JSON object: the value bound to the
key, or `None` when absent.  `json.loads` keeps the last binding when a key
repeats, hence the left fold. -/
def pyGet (kvs : List (List Char × JVal)) (k : List Char) : JVal :=
  (kvs.foldl (fun acc p => if p.1 = k then some p.2 else acc) none).getD .jnull

/-- `save_to_db(company_id, gpt_data)` (src/crawler.py lines 57-78): look up
the four keys with `.get` (missing gives `None`), normalize each, and issue a
single `UPDATE` setting all four columns.  Any exception inside the `try` —
`.get` on a non-dict value (`AttributeError`), or `normalize_field` raising in
the `unicode_escape` decode — is caught and logged, and no write happens
(`none`). -/
def save_to_db (gpt_data : JVal) : Option RowUpdate :=
  match gpt_data with
  | .jobj kvs =>
    match normalize_field (pyGet kvs "product_name".toList),
          normalize_field (pyGet kvs "product_function".toList),
          normalize_field (pyGet kvs "product_location".toList),
          normalize_field (pyGet kvs "product_qual".toList) with
    | some pn, some pf, some pl, some pq =>
      some { product_name := pn, product_function := pf,
             product_location := pl, product_qual := pq }
    | _, _, _, _ => none
  | _ => none

/-- `str.startswith(p)`: is `p` a leading segment of `s`? -/
def startsWithL (p s : List Char) : Bool :=
  match p, s with
  | [], _ => true
  | _ :: _, [] => false
  | a :: p', b :: s' => a == b && startsWithL p' s'

/-- The outcome of the external-model translation call for one record:
either the service raised, or it returned a message text. -/
def TranslateOracle : Type := Except Unit (List Char)

/-- `translate_to_english_if_needed(raw_text)` (src/crawler.py lines
81-100): ask the model; on success return the response stripped, on any
service error return the original text unchanged. -/
def translate_to_english_if_needed (raw_text : List Char)
    (svc : TranslateOracle) : List Char :=
  match svc with
  | .error _ => raw_text
  | .ok content => pyStrip content

/-- The outcome of the extraction model call for one record: the call itself
raised (`.error`), or it returned text that failed `json.loads`
(`.ok none`), or it returned text parsing to a JSON value (`.ok (some v)`). -/
def GptOracle : Type := Except Unit (Option JVal)

/-- `extract_with_gpt(english_text)` (src/crawler.py lines 102-142): the
text only builds the prompt (truncated to 7000 characters); on a service
error or a `json.JSONDecodeError` return `None`; otherwise return the decoded
JSON value. -/
def extract_with_gpt (english_text : List Char) (svc : GptOracle) : Option JVal :=
  match svc with
  | .error _ => none
  | .ok none => none
  | .ok (some v) => some v

/-- The external world one `process_company` task observes: the navigation
outcome (`page.goto` + the two waits), whether `page.is_closed()` afterwards,
the page-text read outcome (`page.content` + BeautifulSoup extraction), and
the two model-call outcomes.  The database statements themselves are assumed
to succeed; `save_to_db`'s internally caught failure (non-dict data or a
normalization error) is modelled in `save_to_db`. -/
structure ExtEnv where
  nav : Except Unit Unit
  pageClosed : Bool
  readContent : Except Unit (List Char)
  translateSvc : TranslateOracle
  gptSvc : GptOracle

/-- The terminal disposition of one `process_company` task. -/
inductive Outcome where
  /-- `not website.startswith("http")`: early `return`, no DB write. -/
  | invalidUrl : Outcome
  /-- navigation raised: sentinel `"[unreachable website]"` written. -/
  | unreachable : Outcome
  /-- `page.is_closed()` was true: early `return`, no DB write. -/
  | pageClosedSkip : Outcome
  /-- reading the page text raised: sentinel `"[unreadable content]"` written. -/
  | unreadable : Outcome
  /-- `gpt_result` was `None` or falsy: sentinel `"[gpt fail]"` written. -/
  | gptFail : Outcome
  /-- truthy extraction result and `save_to_db` succeeded: the four
  normalized fields written. -/
  | saved : RowUpdate → Outcome
  /-- truthy extraction result but `save_to_db` caught an exception:
  no write. -/
  | saveFailed : Outcome
deriving DecidableEq, Repr

/-- An `UPDATE` with the given `product_name` and empty strings in the other
three fields, as each sentinel branch of `process_company` issues. -/
def sentinelUpdate (s : List Char) : RowUpdate :=
  { product_name := s, product_function := [],
    product_location := [], product_qual := [] }

/-- `process_company(company, playwright)` (src/crawler.py lines 145-218):
reject URLs not starting with `"http"` before any navigation; navigation
failure writes `"[unreachable website]"`; a page found closed is skipped with
no write; a failed text read writes `"[unreadable content]"`; then translate
(best-effort), extract, and either save the normalized fields (truthy result)
or write `"[gpt fail]"`. -/
def process_company (website : List Char) (env : ExtEnv) : Outcome :=
  if !startsWithL "http".toList website then .invalidUrl
  else
    match env.nav with
    | .error _ => .unreachable
    | .ok _ =>
      if env.pageClosed then .pageClosedSkip
      else
        match env.readContent with
        | .error _ => .unreadable
        | .ok text_content =>
          let translated := translate_to_english_if_needed text_content env.translateSvc
          let gpt_result := extract_with_gpt translated env.gptSvc
          match gpt_result with
          | some v =>
            if pyTruthy v then
              match save_to_db v with
              | some u => .saved u
              | none => .saveFailed
            else .gptFail
          | none => .gptFail

/-- The single `UPDATE` statement a finished task issued, if any: sentinel
branches write their sentinel into `product_name` and `''` into the other
three columns in one statement; the success branch writes the four
normalized fields in one statement; the skip branches and a caught save
error write nothing. -/
def writeOf : Outcome → Option RowUpdate
  | .invalidUrl => none
  | .unreachable => some (sentinelUpdate "[unreachable website]".toList)
  | .pageClosedSkip => none
  | .unreadable => some (sentinelUpdate "[unreadable content]".toList)
  | .gptFail => some (sentinelUpdate "[gpt fail]".toList)
  | .saved u => some u
  | .saveFailed => none

/-- An observable event of the dispatcher loop in `main` (src/crawler.py
lines 221-240).  `n` is the loop-iteration (batch) number. -/
inductive Event where
  /-- the loop top read the `stop_requested` flag on iteration `n`. -/
  | stopCheck : Nat → Event
  /-- `fetch_companies` was called on iteration `n` and returned a batch. -/
  | fetch : Nat → Event
  /-- task `i` of batch `n` was created (tasks are created in batch order). -/
  | taskStart : Nat → Nat → Event
  /-- task `i` of batch `n` finished normally (its coroutine returned). -/
  | taskEnd : Nat → Nat → Event
  /-- an exception escaped task `i` of batch `n` and was propagated by
  `asyncio.gather` (with the default `return_exceptions=False`) into the
  `except` at line 237; the unfinished sibling tasks are NOT cancelled. -/
  | taskRaise : Nat → Nat → Event
  /-- the loop broke (stop flag, or empty batch). -/
  | exitLoop : Event
deriving DecidableEq, Repr

/-- The completion events of leftover in-flight tasks `(batch, index)` from
an earlier batch whose `gather` returned early. -/
def pendingEnds (pending : List (Nat × Nat)) : List Event :=
  pending.map (fun p => Event.taskEnd p.1 p.2)

/-- The event trace of `main`'s `while True` loop (src/crawler.py lines
221-240), starting at iteration `n` with `pending` leftover in-flight tasks:
check the stop flag; if set, break; otherwise fetch a batch; if empty,
break; otherwise create one task per record and `await asyncio.gather(*tasks)`.

The gather has two outcomes, chosen by the oracle `raised`:
* `raised n = none`: no exception escapes a task; `gather` returns only
  after every task of batch `n` finished, in the completion order given by
  the oracle `done n` (for a real schedule, a permutation of the batch).
* `raised n = some j`: an exception escapes task `j` (e.g. the browser
  launch / `new_context` at crawler.py lines 153-154, which sit outside
  `process_company`'s `try`); `gather` propagates it immediately — only the
  tasks in `done n` have finished by then — and the `except` at line 237
  swallows it.  The unfinished sibling tasks are not cancelled and keep
  running; they become the `pending` leftovers of the recursive call.

Between `gather`'s return, the stop-flag check, `fetch_companies` (a
synchronous DB call), and the creation of the next batch's tasks there is no
`await`, so the event loop cannot run leftover tasks in that stretch: a
leftover task can resume — and hence finish — only inside a later gather
window.  The model emits leftover completions at the start of the next
non-empty batch's gather window (the earliest schedule); if the loop breaks
first, `asyncio.run` abandons the still-pending tasks and no completion
event occurs.  Within one gather window the real interleaving of task
starts, leftover completions and batch completions is schedule-dependent;
the model fixes one representative order, and no theorem below depends on
intra-window order.  `stop k` is whether the stop flag is observed set at
iteration `k`, `size k` how many rows the iteration-`k` query returns, and
`fuel` bounds the observation since the loop alone need not terminate. -/
def mainTrace (fuel : Nat) (n : Nat) (stop : Nat → Bool) (size : Nat → Nat)
    (raised : Nat → Option Nat) (done : Nat → List Nat)
    (pending : List (Nat × Nat)) : List Event :=
  match fuel with
  | 0 => []
  | fuel + 1 =>
    Event.stopCheck n ::
      if stop n then [Event.exitLoop]
      else
        Event.fetch n ::
          if size n = 0 then [Event.exitLoop]
          else
            (List.range (size n)).map (Event.taskStart n) ++
            pendingEnds pending ++
            match raised n with
            | none =>
              (done n).map (Event.taskEnd n) ++
              mainTrace fuel (n + 1) stop size raised done []
            | some j =>
              (done n).map (Event.taskEnd n) ++ [Event.taskRaise n j] ++
              mainTrace fuel (n + 1) stop size raised done
                (((List.range (size n)).filter
                    (fun i => !(done n).contains i && i != j)).map
                  (fun i => (n, i)))

/-- `a` occurs strictly before `b` in the list. -/
def Precedes (a b : Event) (l : List Event) : Prop :=
  ∃ l1 l2 l3, l = l1 ++ a :: (l2 ++ b :: l3)

/-- Executable check for `Precedes`: some occurrence of `a` is followed,
strictly later, by an occurrence of `b`. -/
def precedesB (a b : Event) : List Event → Bool
  | [] => false
  | x :: xs => (x == a && decide (b ∈ xs)) || precedesB a b xs

/-! ### Helper lemmas about the final `.encode().decode('unicode_escape').strip()` step -/

/-- `dropWhile` is idempotent. -/
lemma dropWhile_dropWhile (p : Char → Bool) (l : List Char) :
    (l.dropWhile p).dropWhile p = l.dropWhile p := by
  induction l with
  | nil => rfl
  | cons a t ih =>
    by_cases h : p a = true
    · simp [List.dropWhile, h, ih]
    · simp at h
      simp [List.dropWhile, h]

/-- A leading segment of a list that `dropWhile` leaves unchanged is itself
left unchanged. -/
lemma dropWhile_eq_self_of_leading (p : Char → Bool) (l1 l2 : List Char)
    (hp : l1 <+: l2) (h : l2.dropWhile p = l2) : l1.dropWhile p = l1 := by
  match l1, hp with
  | [], _ => rfl
  | a :: t1, ⟨r, hr⟩ =>
    subst hr
    have ha : p a = false := by
      by_contra hpa
      simp only [Bool.not_eq_false] at hpa
      simp only [List.cons_append] at h
      rw [List.dropWhile_cons_of_pos hpa] at h
      have := (List.dropWhile_suffix (l := t1 ++ r) p).length_le
      rw [h] at this
      simp at this
    simp [List.dropWhile, ha]

/-- Python `strip()` is idempotent. -/
lemma pyStrip_idem (s : List Char) : pyStrip (pyStrip s) = pyStrip s := by
  unfold pyStrip
  set p := pyIsSpace
  set t := s.dropWhile p with ht
  have htt : t.dropWhile p = t := dropWhile_dropWhile p s
  set u := t.reverse.dropWhile p with hu
  have huu : u.dropWhile p = u := by rw [hu]; exact dropWhile_dropWhile p t.reverse
  have hur : u.reverse.dropWhile p = u.reverse := by
    apply dropWhile_eq_self_of_leading p _ t _ htt
    rw [← List.reverse_reverse t]
    exact List.reverse_prefix.mpr (List.dropWhile_suffix p)
  rw [hur, List.reverse_reverse, huu]

/-- Whatever `normalize_field` returns is already stripped. -/
lemma normalize_field_stripped (v : JVal) (s : List Char)
    (h : normalize_field v = some s) : pyStrip s = s := by
  have key : ∀ x r, normalizeStr x = some r → pyStrip r = r := by
    intro x r hx
    unfold normalizeStr at hx
    obtain ⟨a, _, rfl⟩ := Option.map_eq_some'.mp hx
    exact pyStrip_idem a
  cases v with
  | jnull =>
    simp [normalize_field] at h
    subst h; rfl
  | jbool b => exact key _ _ h
  | jint n => exact key _ _ h
  | jstr x => exact key _ _ h
  | jarr xs => exact key _ _ h
  | jobj kvs => exact key _ _ h

/-- UTF-8 encoding of an ASCII string is the list of code points. -/
lemma utf8Encode_ascii (s : List Char) (h : ∀ c ∈ s, c.toNat < 128) :
    utf8Encode s = s.map Char.toNat := by
  induction s with
  | nil => rfl
  | cons c t ih =>
    have hc : c.toNat < 128 := h c (List.mem_cons_self c t)
    have ht := ih (fun x hx => h x (List.mem_cons_of_mem c hx))
    simp only [utf8Encode, List.map_cons, List.flatten_cons] at *
    rw [ht]
    have : utf8EncodeChar c = [c.toNat] := by
      unfold utf8EncodeChar
      rw [if_pos hc]
    rw [this]
    rfl

/-- `unicode_escape`-decoding bytes containing no backslash is Latin-1
decoding. -/
lemma uescDecode_plain (bs : List Nat) (h : ∀ b ∈ bs, b ≠ 92) :
    uescDecode bs = some (bs.map Char.ofNat) := by
  induction bs with
  | nil => rfl
  | cons b t ih =>
    have hb : b ≠ 92 := h b (List.mem_cons_self b t)
    have ht := ih (fun x hx => h x (List.mem_cons_of_mem b hx))
    rw [uescDecode.eq_def]
    split
    · simp_all
    · simp_all
    · rename_i heq
      injection heq with h1 h2
      subst h1
      subst h2
      rw [ht]
      rfl

/-- C1 (counterexample): the Field Normalizer is NOT idempotent.  The scalar
text `a\\n` (characters `a`, backslash, backslash, `n`) normalizes to `a\n`
(`a`, backslash, `n`), but normalizing that already-normalized string again
collapses the `\n` escape into a newline, which `strip()` then removes,
leaving `a`: `normalize_field (normalize_field v) ≠ normalize_field v`. -/
theorem normalize_field_not_idempotent :
    normalize_field (JVal.jstr ['a', '\\', '\\', 'n']) = some ['a', '\\', 'n'] ∧
    normalize_field (JVal.jstr ['a', '\\', 'n']) = some ['a'] ∧
    some ['a'] ≠ some ['a', '\\', 'n'] := by
  refine ⟨by decide, by decide, by decide⟩

/-- C1 (amended): the Field Normalizer is idempotent on every Field Value
whose normalized form is an ASCII string containing no backslash: feeding
such an output back in returns it unchanged.  (Outputs containing a
backslash, as in the counterexample, or non-ASCII characters, which the
`encode`/`decode` round-trip mangles, can change again.) -/
theorem normalize_field_idem_of_clean (v : JVal) (s : List Char)
    (h : normalize_field v = some s)
    (hascii : ∀ c ∈ s, c.toNat < 128) (hnb : '\\' ∉ s) :
    normalize_field (JVal.jstr s) = some s := by
  have hstrip : pyStrip s = s := normalize_field_stripped v s h
  have henc : utf8Encode s = s.map Char.toNat := utf8Encode_ascii s hascii
  have hdec : uescDecode (s.map Char.toNat) =
      some ((s.map Char.toNat).map Char.ofNat) := by
    apply uescDecode_plain
    intro b hb
    obtain ⟨c, hc, rfl⟩ := List.mem_map.mp hb
    intro hb92
    apply hnb
    have h2 := Char.ofNat_toNat c
    rw [hb92] at h2
    have h3 : c = '\\' := by rw [← h2]
    exact h3 ▸ hc
  have hround : (s.map Char.toNat).map Char.ofNat = s := by
    rw [List.map_map]
    exact (List.map_congr_left (fun c _ => Char.ofNat_toNat c)).trans (List.map_id s)
  have : normalize_field (JVal.jstr s) = normalizeStr s := by
    simp [normalize_field, pyStr]
  rw [this]
  unfold normalizeStr
  rw [henc, hdec, hround]
  simp [hstrip]

/-- Witness for the amended C1 theorem at the concrete value `"ok"`. -/
theorem normalize_field_idem_of_clean_witness :
    normalize_field (JVal.jstr ['o', 'k']) = some ['o', 'k'] :=
  normalize_field_idem_of_clean (JVal.jstr ['o', 'k']) ['o', 'k']
    (by decide) (by decide) (by decide)

/-! ### Claim theorems about the record pipeline -/

/-- When the URL passes the scheme check, no branch of `process_company`
yields the input-rejection outcome. -/
lemma process_company_ne_invalid_of_http (w : List Char) (env : ExtEnv)
    (hw : startsWithL "http".toList w = true) :
    process_company w env ≠ Outcome.invalidUrl := by
  unfold process_company
  rw [hw]
  simp only [Bool.not_true, Bool.false_eq_true, if_false]
  split
  · simp
  · split
    · simp
    · split
      · simp
      · split
        · split
          · split <;> simp
          · simp
        · simp

/-- C5: a record whose URL does not start with `"http"` is rejected before
any navigation attempt and no DB write is performed (the four output fields
stay `NULL`); conversely a URL starting with `"http"` (which covers both the
`http` and `https` schemes) is never rejected by this check, whatever the
external world does. -/
theorem invalid_url_skips_without_write (w : List Char) (env : ExtEnv) :
    (process_company w env = Outcome.invalidUrl ↔
      startsWithL "http".toList w = false) ∧
    (startsWithL "http".toList w = false →
      writeOf (process_company w env) = none) := by
  have hmain : startsWithL "http".toList w = false →
      process_company w env = Outcome.invalidUrl := by
    intro hb
    unfold process_company
    rw [hb]
    rfl
  refine ⟨⟨fun h => ?_, hmain⟩, fun hb => ?_⟩
  · cases hb : startsWithL "http".toList w
    · rfl
    · exact absurd h (process_company_ne_invalid_of_http w env hb)
  · rw [hmain hb]
    rfl

/-- Witness for C5 at the spec's end-to-end scenario 1: URL `"ftp://x.com"`
is rejected with no write. -/
theorem invalid_url_skips_without_write_witness :
    (process_company "ftp://x.com".toList
        ⟨Except.ok (), false, Except.ok [], Except.ok [], Except.ok none⟩ =
      Outcome.invalidUrl) ∧
    writeOf (process_company "ftp://x.com".toList
        ⟨Except.ok (), false, Except.ok [], Except.ok [], Except.ok none⟩) =
      none :=
  ⟨((invalid_url_skips_without_write "ftp://x.com".toList
      ⟨Except.ok (), false, Except.ok [], Except.ok [], Except.ok none⟩).1).mpr
      (by decide),
   (invalid_url_skips_without_write "ftp://x.com".toList
      ⟨Except.ok (), false, Except.ok [], Except.ok [], Except.ok none⟩).2
      (by decide)⟩

/-- C2 (counterexample): a model response that is valid, truthy JSON but
lacks the four expected keys is NOT reported as an extraction failure: the
pipeline persists it through the success path, writing four empty strings
(each missing key normalizes to `""`), not the `"[gpt fail]"` sentinel. -/
theorem truthy_json_without_keys_saved :
    process_company "http://a.com".toList
        ⟨Except.ok (), false, Except.ok [], Except.ok [],
         Except.ok (some (JVal.jobj [("unrelated".toList, JVal.jstr "x".toList)]))⟩ =
      Outcome.saved ⟨[], [], [], []⟩ ∧
    process_company "http://a.com".toList
        ⟨Except.ok (), false, Except.ok [], Except.ok [],
         Except.ok (some (JVal.jobj [("unrelated".toList, JVal.jstr "x".toList)]))⟩ ≠
      Outcome.gptFail := by
  refine ⟨by decide, by decide⟩

/-- C2 (amended): for every model response that is not valid JSON
(`json.loads` raises), the pipeline writes the `"[gpt fail]"` sentinel into
`product_name` and empty strings into the other three fields, and never
persists such a response as a success.  (A valid, truthy JSON response
lacking the four keys is instead persisted via the success path.) -/
theorem parse_failure_writes_gpt_fail (w : List Char) (env : ExtEnv)
    (t : List Char)
    (hw : startsWithL "http".toList w = true)
    (hnav : env.nav = Except.ok ()) (hpc : env.pageClosed = false)
    (hrc : env.readContent = Except.ok t)
    (hg : env.gptSvc = Except.ok none) :
    process_company w env = Outcome.gptFail ∧
    writeOf (process_company w env) =
      some (sentinelUpdate "[gpt fail]".toList) := by
  have hw' : startsWithL ['h', 't', 't', 'p'] w = true := hw
  have h1 : process_company w env = Outcome.gptFail := by
    simp [process_company, hw', hnav, hpc, hrc, hg, extract_with_gpt]
  exact ⟨h1, by rw [h1]; rfl⟩

/-- Witness for the amended C2 theorem at a concrete environment in which
the model returned non-JSON text. -/
theorem parse_failure_writes_gpt_fail_witness :
    process_company "http://a.com".toList
        ⟨Except.ok (), false, Except.ok [], Except.error (), Except.ok none⟩ =
      Outcome.gptFail ∧
    writeOf (process_company "http://a.com".toList
        ⟨Except.ok (), false, Except.ok [], Except.error (), Except.ok none⟩) =
      some (sentinelUpdate "[gpt fail]".toList) :=
  parse_failure_writes_gpt_fail "http://a.com".toList
    ⟨Except.ok (), false, Except.ok [], Except.error (), Except.ok none⟩
    [] (by decide) rfl rfl rfl rfl

/-- C9: a model response parsing to a falsy JSON value (the empty object,
the empty array, `0`, or the empty string) is treated as an extraction
failure — the `if gpt_result:` test fails — and the `"[gpt fail]"` sentinel
is written, even though the response is valid JSON. -/
theorem falsy_json_writes_gpt_fail (w : List Char) (env : ExtEnv)
    (t : List Char) (v : JVal)
    (hw : startsWithL "http".toList w = true)
    (hnav : env.nav = Except.ok ()) (hpc : env.pageClosed = false)
    (hrc : env.readContent = Except.ok t)
    (hg : env.gptSvc = Except.ok (some v)) (hv : pyTruthy v = false) :
    process_company w env = Outcome.gptFail ∧
    writeOf (process_company w env) =
      some (sentinelUpdate "[gpt fail]".toList) := by
  have hw' : startsWithL ['h', 't', 't', 'p'] w = true := hw
  have h1 : process_company w env = Outcome.gptFail := by
    simp [process_company, hw', hnav, hpc, hrc, hg, extract_with_gpt, hv]
  exact ⟨h1, by rw [h1]; rfl⟩

/-- Witness for C9 at the empty JSON object `\x7b\x7d`. -/
theorem falsy_json_writes_gpt_fail_witness :
    process_company "http://a.com".toList
        ⟨Except.ok (), false, Except.ok [], Except.ok [],
         Except.ok (some (JVal.jobj []))⟩ =
      Outcome.gptFail ∧
    writeOf (process_company "http://a.com".toList
        ⟨Except.ok (), false, Except.ok [], Except.ok [],
         Except.ok (some (JVal.jobj []))⟩) =
      some (sentinelUpdate "[gpt fail]".toList) :=
  falsy_json_writes_gpt_fail "http://a.com".toList
    ⟨Except.ok (), false, Except.ok [], Except.ok [],
     Except.ok (some (JVal.jobj []))⟩
    [] (JVal.jobj []) (by decide) rfl rfl rfl rfl rfl

/-- C4 (counterexample): a page found already closed after a successful
navigation does NOT receive the `"[unreadable content]"` sentinel: the task
returns early with no DB write at all, leaving the record `NULL`. -/
theorem closed_page_no_write :
    process_company "http://a.com".toList
        ⟨Except.ok (), true, Except.ok [], Except.ok [], Except.ok none⟩ =
      Outcome.pageClosedSkip ∧
    writeOf (process_company "http://a.com".toList
        ⟨Except.ok (), true, Except.ok [], Except.ok [], Except.ok none⟩) =
      none := by
  refine ⟨by decide, by decide⟩

/-- C4 (amended): when navigation succeeds, the page is still open, but
reading the page text raises (timeout or error while extracting content),
the pipeline writes the `"[unreadable content]"` sentinel into
`product_name` and empty strings into the other three fields — a terminal
state.  (A page found already closed is instead skipped with no write.) -/
theorem read_failure_writes_unreadable (w : List Char) (env : ExtEnv)
    (hw : startsWithL "http".toList w = true)
    (hnav : env.nav = Except.ok ()) (hpc : env.pageClosed = false)
    (hrc : env.readContent = Except.error ()) :
    process_company w env = Outcome.unreadable ∧
    writeOf (process_company w env) =
      some (sentinelUpdate "[unreadable content]".toList) := by
  have hw' : startsWithL ['h', 't', 't', 'p'] w = true := hw
  have h1 : process_company w env = Outcome.unreadable := by
    simp [process_company, hw', hnav, hpc, hrc]
  exact ⟨h1, by rw [h1]; rfl⟩

/-- Witness for the amended C4 theorem at a concrete environment whose page
text read fails. -/
theorem read_failure_writes_unreadable_witness :
    process_company "http://a.com".toList
        ⟨Except.ok (), false, Except.error (), Except.ok [], Except.ok none⟩ =
      Outcome.unreadable ∧
    writeOf (process_company "http://a.com".toList
        ⟨Except.ok (), false, Except.error (), Except.ok [], Except.ok none⟩) =
      some (sentinelUpdate "[unreadable content]".toList) :=
  read_failure_writes_unreadable "http://a.com".toList
    ⟨Except.ok (), false, Except.error (), Except.ok [], Except.ok none⟩
    (by decide) rfl rfl rfl

/-- C7: on any service error, the Language Normalizer returns the original
text unchanged — it degrades to a no-op and cannot fail the pipeline (it is
a total function). -/
theorem translate_service_error_noop (raw_text : List Char) (e : Unit) :
    translate_to_english_if_needed raw_text (Except.error e) = raw_text :=
  rfl

/-- C6: when the model returns
`\x7b"product_name": ["Bananas","Durian"], "product_function": "Food",
"product_location": "Vietnam", "product_qual": null\x7d`, the pipeline
persists a row with `product_name = "Bananas, Durian"` (the ordered sequence
joined with `", "`) and `product_qual = ""` (the absent value), via a single
full-success `UPDATE`. -/
theorem scenario4_sequence_and_null_fields :
    process_company "http://x.com".toList
        ⟨Except.ok (), false, Except.ok [], Except.ok [],
         Except.ok (some (JVal.jobj
           [("product_name".toList,
             JVal.jarr [JVal.jstr "Bananas".toList, JVal.jstr "Durian".toList]),
            ("product_function".toList, JVal.jstr "Food".toList),
            ("product_location".toList, JVal.jstr "Vietnam".toList),
            ("product_qual".toList, JVal.jnull)]))⟩ =
      Outcome.saved
        ⟨"Bananas, Durian".toList, "Food".toList, "Vietnam".toList, []⟩ ∧
    (applyUpdate
        ⟨1, [], some "http://x.com".toList, none, none, none, none⟩
        ⟨"Bananas, Durian".toList, "Food".toList, "Vietnam".toList, []⟩).product_name =
      some "Bananas, Durian".toList ∧
    (applyUpdate
        ⟨1, [], some "http://x.com".toList, none, none, none, none⟩
        ⟨"Bananas, Durian".toList, "Food".toList, "Vietnam".toList, []⟩).product_qual =
      some [] := by
  refine ⟨by decide, rfl, rfl⟩

/-! ### Claim theorems about the work queue -/

/-- Membership is preserved (both ways) by sorted insertion. -/
lemma mem_insertById (r x : CompanyRow) (l : List CompanyRow) :
    r ∈ insertById x l ↔ r = x ∨ r ∈ l := by
  induction l with
  | nil => simp [insertById]
  | cons a t ih =>
    unfold insertById
    by_cases h : x.id ≤ a.id
    · simp [h]
    · simp [h, ih]
      tauto

/-- Sorting by `id` does not change the rows. -/
lemma mem_sortById (r : CompanyRow) (l : List CompanyRow) :
    r ∈ sortById l ↔ r ∈ l := by
  induction l with
  | nil => simp [sortById]
  | cons a t ih =>
    unfold sortById at *
    simp only [List.foldr_cons]
    rw [mem_insertById]
    simp [ih]

/-- A row with `product_name = NULL` but a non-`NULL` value in another
output field, used to exercise the queue predicate. -/
def mixedRow : CompanyRow :=
  { id := 5, name := [], website := some "http://w".toList,
    product_name := none,
    product_function := some "x".toList,
    product_location := some "y".toList,
    product_qual := some "z".toList }

/-- C3 (counterexample): a record with non-`NULL` values in three of the
four output fields is still returned by the queue query as long as
`product_name` is `NULL` — a non-`NULL` value in another output field does
not remove eligibility. -/
theorem queue_returns_row_with_non_null_output :
    mixedRow ∈ fetch_companies [mixedRow] 10 0 ∧
    mixedRow.product_function ≠ none ∧
    mixedRow.product_location ≠ none ∧
    mixedRow.product_qual ≠ none := by
  refine ⟨by decide, by decide, by decide, by decide⟩

/-- C3 (amended): among the four output fields, eligibility for selection
depends only on `product_name`: every row `fetch_companies` returns has
`website` non-`NULL`, `product_name` `NULL`, and `id ≥ cursor` — a
non-`NULL` `product_name` (including a sentinel) removes the record from
eligibility, but non-`NULL` values in the other three fields alone do not. -/
theorem fetch_companies_mem_eligible (db : List CompanyRow) (limit : Nat)
    (start_from : Int) (r : CompanyRow)
    (h : r ∈ fetch_companies db limit start_from) :
    r.website.isSome = true ∧ r.product_name = none ∧ start_from ≤ r.id := by
  unfold fetch_companies at h
  have h1 : r ∈ sortById (db.filter (eligible start_from)) :=
    List.take_subset limit _ h
  have h2 : r ∈ db.filter (eligible start_from) :=
    (mem_sortById r _).mp h1
  have h3 : eligible start_from r = true := (List.mem_filter.mp h2).2
  unfold eligible at h3
  simp only [Bool.and_eq_true, decide_eq_true_eq] at h3
  exact ⟨h3.1.1, Option.isNone_iff_eq_none.mp h3.1.2, h3.2⟩

/-- Witness for the amended C3 theorem at a concrete one-row database. -/
theorem fetch_companies_mem_eligible_witness :
    mixedRow.website.isSome = true ∧ mixedRow.product_name = none ∧
      (0 : Int) ≤ mixedRow.id :=
  fetch_companies_mem_eligible [mixedRow] 10 0 mixedRow (by decide)

/-- C10: every DB write the pipeline performs — the full-success write or
any sentinel write — is a single `UPDATE` assigning all four output fields
non-`NULL` string values; applying any such completed write to the record
makes every output field non-`NULL` and removes the record from queue
eligibility for every cursor, so no write can leave a mix of `NULL` and
non-`NULL` output fields. -/
theorem pipeline_write_removes_eligibility (w : List Char) (env : ExtEnv)
    (r : CompanyRow) (start_from : Int) (u : RowUpdate)
    (h : writeOf (process_company w env) = some u) :
    (applyUpdate r u).product_name.isSome = true ∧
    (applyUpdate r u).product_function.isSome = true ∧
    (applyUpdate r u).product_location.isSome = true ∧
    (applyUpdate r u).product_qual.isSome = true ∧
    eligible start_from (applyUpdate r u) = false := by
  refine ⟨rfl, rfl, rfl, rfl, ?_⟩
  unfold eligible applyUpdate
  simp

/-- Witness for C10 at a concrete navigation failure, whose write is the
`"[unreachable website]"` sentinel. -/
theorem pipeline_write_removes_eligibility_witness :
    (applyUpdate mixedRow (sentinelUpdate "[unreachable website]".toList)).product_name.isSome = true ∧
    (applyUpdate mixedRow (sentinelUpdate "[unreachable website]".toList)).product_function.isSome = true ∧
    (applyUpdate mixedRow (sentinelUpdate "[unreachable website]".toList)).product_location.isSome = true ∧
    (applyUpdate mixedRow (sentinelUpdate "[unreachable website]".toList)).product_qual.isSome = true ∧
    eligible 0 (applyUpdate mixedRow (sentinelUpdate "[unreachable website]".toList)) = false :=
  pipeline_write_removes_eligibility "http://a.com".toList
    ⟨Except.error (), false, Except.ok [], Except.ok [], Except.ok none⟩
    mixedRow 0 (sentinelUpdate "[unreachable website]".toList) (by decide)

/-! ### Claim theorems about the dispatcher loop -/

/-- `Precedes` is stable under prepending events. -/
lemma precedes_append_left (a b : Event) (pre l : List Event)
    (h : Precedes a b l) : Precedes a b (pre ++ l) := by
  obtain ⟨l1, l2, l3, hl⟩ := h
  exact ⟨pre ++ l1, l2, l3, by rw [hl]; simp⟩

/-- `Precedes` coincides with its executable check, so concrete instances
(positive and negative) can be settled by evaluation. -/
lemma precedes_iff (a b : Event) (l : List Event) :
    Precedes a b l ↔ precedesB a b l = true := by
  constructor
  · rintro ⟨l1, l2, l3, rfl⟩
    induction l1 with
    | nil => simp [precedesB]
    | cons x xs ih => simp [precedesB, ih]
  · intro h
    induction l with
    | nil => simp [precedesB] at h
    | cons x xs ih =>
      simp only [precedesB, Bool.or_eq_true, Bool.and_eq_true, beq_iff_eq,
        decide_eq_true_eq] at h
      rcases h with ⟨rfl, hb⟩ | h2
      · obtain ⟨s, t, rfl⟩ := List.append_of_mem hb
        exact ⟨[], s, t, rfl⟩
      · obtain ⟨l1, l2, l3, hl⟩ := ih h2
        exact ⟨x :: l1, l2, l3, by rw [hl]; rfl⟩

/-- Batch synchrony of the dispatcher loop for a batch with no escaping
exception, over an arbitrary starting iteration `m ≤ n` and arbitrary
leftover tasks: whenever batch `n + 1` is fetched at all, every task of
batch `n` ends before the next stop-flag check and before that fetch, and
the stop-flag check happens between the end of batch `n` and the fetch of
batch `n + 1`. -/
lemma main_batch_sync_aux (stop : Nat → Bool) (size : Nat → Nat)
    (raised : Nat → Option Nat) (done : Nat → List Nat) (fuel : Nat) :
    ∀ (m : Nat) (pending : List (Nat × Nat)) (n i : Nat),
    m ≤ n → raised n = none → i ∈ done n →
    Event.fetch (n + 1) ∈ mainTrace fuel m stop size raised done pending →
    Precedes (Event.taskEnd n i) (Event.stopCheck (n + 1))
        (mainTrace fuel m stop size raised done pending) ∧
    Precedes (Event.taskEnd n i) (Event.fetch (n + 1))
        (mainTrace fuel m stop size raised done pending) ∧
    Precedes (Event.stopCheck (n + 1)) (Event.fetch (n + 1))
        (mainTrace fuel m stop size raised done pending) := by
  induction fuel with
  | zero => intro m pending n i hmn hclean hidone hf; simp [mainTrace] at hf
  | succ fuel ih =>
    intro m pending n i hmn hclean hidone hf
    rw [mainTrace] at hf ⊢
    by_cases hstop : stop m
    · simp [hstop] at hf
    · simp only [hstop, if_false] at hf ⊢
      rcases List.mem_cons.mp hf with h1 | h2
      · exact absurd h1 (by simp)
      rcases List.mem_cons.mp h2 with h3 | h4
      · injection h3 with hk; omega
      by_cases hsz : size m = 0
      · simp [hsz] at h4
      simp only [hsz, if_false] at h4 ⊢
      by_cases hmeq : m = n
      · have hmeq' : n = m := hmeq.symm
        subst hmeq'
        simp only [hclean] at h4 ⊢
        have hf' : Event.fetch (n + 1) ∈
            mainTrace fuel (n + 1) stop size raised done [] := by
          simp only [List.mem_append] at h4
          rcases h4 with (h5 | h5) | h5 | h5
          · exact absurd h5 (by simp)
          · exact absurd h5 (by simp [pendingEnds])
          · exact absurd h5 (by simp)
          · exact h5
        cases fuel with
        | zero => simp [mainTrace] at hf'
        | succ fuel' =>
          have hstop2 : stop (n + 1) = false := by
            by_contra hs2
            simp only [Bool.not_eq_false] at hs2
            rw [mainTrace] at hf'
            simp [hs2] at hf'
          obtain ⟨rest, hrest⟩ : ∃ rest,
              mainTrace (fuel' + 1) (n + 1) stop size raised done [] =
                Event.stopCheck (n + 1) :: Event.fetch (n + 1) :: rest := by
            rw [mainTrace, hstop2]
            simp only [Bool.false_eq_true, if_false]
            exact ⟨_, rfl⟩
          have hie : Event.taskEnd n i ∈ (done n).map (Event.taskEnd n) :=
            List.mem_map.mpr ⟨i, hidone, rfl⟩
          obtain ⟨e1, e2, hends⟩ := List.append_of_mem hie
          refine ⟨?_, ?_, ?_⟩
          · exact ⟨Event.stopCheck n :: Event.fetch n ::
              ((List.range (size n)).map (Event.taskStart n) ++
               pendingEnds pending ++ e1), e2,
              Event.fetch (n + 1) :: rest,
              by rw [hends, hrest]; simp⟩
          · exact ⟨Event.stopCheck n :: Event.fetch n ::
              ((List.range (size n)).map (Event.taskStart n) ++
               pendingEnds pending ++ e1),
              e2 ++ [Event.stopCheck (n + 1)], rest,
              by rw [hends, hrest]; simp⟩
          · exact ⟨Event.stopCheck n :: Event.fetch n ::
              ((List.range (size n)).map (Event.taskStart n) ++
               pendingEnds pending ++ (done n).map (Event.taskEnd n)), [], rest,
              by rw [hrest]; simp⟩
      · have hmn' : m + 1 ≤ n := by omega
        cases hraise : raised m with
        | none =>
          simp only [hraise] at h4 ⊢
          have hf' : Event.fetch (n + 1) ∈
              mainTrace fuel (m + 1) stop size raised done [] := by
            simp only [List.mem_append] at h4
            rcases h4 with (h5 | h5) | h5 | h5
            · exact absurd h5 (by simp)
            · exact absurd h5 (by simp [pendingEnds])
            · exact absurd h5 (by simp)
            · exact h5
          obtain ⟨p1, p2, p3⟩ := ih (m + 1) [] n i hmn' hclean hidone hf'
          have lift : ∀ a b,
              Precedes a b (mainTrace fuel (m + 1) stop size raised done []) →
              Precedes a b (Event.stopCheck m :: Event.fetch m ::
                ((List.range (size m)).map (Event.taskStart m) ++
                 pendingEnds pending ++
                 ((done m).map (Event.taskEnd m) ++
                  mainTrace fuel (m + 1) stop size raised done []))) := by
            intro a b hp
            have := precedes_append_left a b
              (Event.stopCheck m :: Event.fetch m ::
                ((List.range (size m)).map (Event.taskStart m) ++
                 pendingEnds pending ++ (done m).map (Event.taskEnd m))) _ hp
            obtain ⟨l1, l2, l3, hl⟩ := this
            exact ⟨l1, l2, l3, by rw [← hl]; simp⟩
          exact ⟨lift _ _ p1, lift _ _ p2, lift _ _ p3⟩
        | some j =>
          simp only [hraise] at h4 ⊢
          have hf' : Event.fetch (n + 1) ∈
              mainTrace fuel (m + 1) stop size raised done
                (((List.range (size m)).filter
                    (fun i => !(done m).contains i && i != j)).map
                  (fun i => (m, i))) := by
            simp only [List.mem_append] at h4
            rcases h4 with (h5 | h5) | (h5 | h5) | h5
            · exact absurd h5 (by simp)
            · exact absurd h5 (by simp [pendingEnds])
            · exact absurd h5 (by simp)
            · exact absurd h5 (by simp)
            · exact h5
          obtain ⟨p1, p2, p3⟩ := ih (m + 1)
            (((List.range (size m)).filter
                (fun i => !(done m).contains i && i != j)).map
              (fun i => (m, i))) n i hmn' hclean hidone hf'
          have lift : ∀ a b,
              Precedes a b (mainTrace fuel (m + 1) stop size raised done
                (((List.range (size m)).filter
                    (fun i => !(done m).contains i && i != j)).map
                  (fun i => (m, i)))) →
              Precedes a b (Event.stopCheck m :: Event.fetch m ::
                ((List.range (size m)).map (Event.taskStart m) ++
                 pendingEnds pending ++
                 ((done m).map (Event.taskEnd m) ++ [Event.taskRaise m j] ++
                  mainTrace fuel (m + 1) stop size raised done
                    (((List.range (size m)).filter
                        (fun i => !(done m).contains i && i != j)).map
                      (fun i => (m, i)))))) := by
            intro a b hp
            have := precedes_append_left a b
              (Event.stopCheck m :: Event.fetch m ::
                ((List.range (size m)).map (Event.taskStart m) ++
                 pendingEnds pending ++
                 ((done m).map (Event.taskEnd m) ++ [Event.taskRaise m j]))) _ hp
            obtain ⟨l1, l2, l3, hl⟩ := this
            exact ⟨l1, l2, l3, by rw [← hl]; simp⟩
          exact ⟨lift _ _ p1, lift _ _ p2, lift _ _ p3⟩

/-- Oracles for the counterexample run: two tasks per batch, the stop flag
never set; in batch 0 an exception escapes task 0 before either task has
finished (as when the browser launch at crawler.py line 153 fails), and
every later batch is clean with both tasks completing in index order. -/
def cexStop : Nat → Bool := fun _ => false

/-- Batch size oracle of the counterexample run. -/
def cexSize : Nat → Nat := fun _ => 2

/-- Escaping-exception oracle of the counterexample run. -/
def cexRaised : Nat → Option Nat := fun n => if n = 0 then some 0 else none

/-- Completion-order oracle of the counterexample run. -/
def cexDone : Nat → List Nat := fun n => if n = 0 then [] else [0, 1]

/-- C8 (counterexample): when an exception escapes a task of batch 0,
`asyncio.gather` returns early, the `except` at crawler.py line 237 swallows
the error, and the loop fetches batch 1 while the sibling task 1 of batch 0
is still in flight: `fetch 1` happens, yet `taskEnd 0 1` precedes neither
the next stop check nor that fetch — it occurs only afterwards.  So the
dispatcher does NOT always wait for every task of the current batch before
checking the flag or fetching the next batch. -/
theorem gather_exception_breaks_batch_sync :
    Event.fetch 1 ∈ mainTrace 3 0 cexStop cexSize cexRaised cexDone [] ∧
    1 < cexSize 0 ∧
    ¬ Precedes (Event.taskEnd 0 1) (Event.fetch 1)
        (mainTrace 3 0 cexStop cexSize cexRaised cexDone []) ∧
    ¬ Precedes (Event.taskEnd 0 1) (Event.stopCheck 1)
        (mainTrace 3 0 cexStop cexSize cexRaised cexDone []) ∧
    Precedes (Event.fetch 1) (Event.taskEnd 0 1)
        (mainTrace 3 0 cexStop cexSize cexRaised cexDone []) := by
  refine ⟨by decide, by decide, ?_, ?_, ?_⟩
  · rw [precedes_iff]; decide
  · rw [precedes_iff]; decide
  · rw [precedes_iff]; decide

/-- C8 (amended): provided no exception escapes a task of batch `n` —
`asyncio.gather` then returns only after every task of the batch has
finished, in some completion order `done n` covering the whole batch — the
dispatcher checks the stop request only at the batch boundary and waits for
the whole batch: if batch `n + 1` is fetched then every task `i` of batch
`n` ended before the next stop-flag check and before that fetch, and the
stop check itself precedes the fetch.  (When a task of the batch does raise
an escaping exception, gather returns early and this fails — see the
counterexample.) -/
theorem main_batch_boundary (fuel : Nat) (stop : Nat → Bool)
    (size : Nat → Nat) (raised : Nat → Option Nat) (done : Nat → List Nat)
    (n i : Nat)
    (hclean : raised n = none)
    (hdone : (done n).Perm (List.range (size n)))
    (hi : i < size n)
    (hf : Event.fetch (n + 1) ∈ mainTrace fuel 0 stop size raised done []) :
    Precedes (Event.taskEnd n i) (Event.stopCheck (n + 1))
        (mainTrace fuel 0 stop size raised done []) ∧
    Precedes (Event.taskEnd n i) (Event.fetch (n + 1))
        (mainTrace fuel 0 stop size raised done []) ∧
    Precedes (Event.stopCheck (n + 1)) (Event.fetch (n + 1))
        (mainTrace fuel 0 stop size raised done []) :=
  main_batch_sync_aux stop size raised done fuel 0 [] n i (Nat.zero_le n)
    hclean (hdone.mem_iff.mpr (List.mem_range.mpr hi)) hf

/-- Witness for the amended C8 theorem: a concrete clean two-batch run
(batch size 1, no escaping exception, stop never requested, fuel 3). -/
theorem main_batch_boundary_witness :
    Precedes (Event.taskEnd 0 0) (Event.stopCheck 1)
        (mainTrace 3 0 (fun _ => false) (fun _ => 1) (fun _ => none)
          (fun _ => [0]) []) ∧
    Precedes (Event.taskEnd 0 0) (Event.fetch 1)
        (mainTrace 3 0 (fun _ => false) (fun _ => 1) (fun _ => none)
          (fun _ => [0]) []) ∧
    Precedes (Event.stopCheck 1) (Event.fetch 1)
        (mainTrace 3 0 (fun _ => false) (fun _ => 1) (fun _ => none)
          (fun _ => [0]) []) :=
  main_batch_boundary 3 (fun _ => false) (fun _ => 1) (fun _ => none)
    (fun _ => [0]) 0 0 rfl (by decide) (by decide) (by decide)
